import Mathlib

/-!
Verification of the cogent3 genetic-code core
(`src/cogent3/core/new_genetic_code.py`): codon-alphabet construction,
code-table building, forward and reverse-complement translation, six-frame
enumeration, the `__getitem__` facade, equality, and the code registry.

Sequences and codons are modelled as `List Char`; Python dicts keyed by
codons are modelled as association lists whose keys are distinct; Python
sets are modelled as lists in their (deterministic) construction order.
-/

namespace NewGeneticCode

/-- DNA bases in the canonical cogent3 ordering TCAG (the ordering in which
the NCBI code tables enumerate codons; see the comment above `code_mapping`
in the source). -/
def bases : List Char := ['T', 'C', 'A', 'G']

/-- Modelled from the spec: the index of a single base in the external
4-letter `new_moltype` DNA alphabet; `none` for a symbol outside it. -/
def baseIdx : Char → Option Nat
  | 'T' => some 0
  | 'C' => some 1
  | 'A' => some 2
  | 'G' => some 3
  | _ => none

/-- Modelled from the spec: the 64-entry codon alphabet
(`moltype.alphabet.get_kmer_alphabet(k=3)`), i.e. all triplets in product
order over the base ordering TCAG. -/
def codonList : List (List Char) :=
  bases.flatMap fun a => bases.flatMap fun b => bases.map fun c => [a, b, c]

/-- Modelled from the spec: `KmerAlphabet.to_index` for one triplet; fails
(`none`) when the input is not a triplet over the base alphabet. -/
def codonIdx : List Char → Option Nat
  | [a, b, c] =>
    match baseIdx a, baseIdx b, baseIdx c with
    | some x, some y, some z => some (16 * x + 4 * y + z)
    | _, _, _ => none
  | _ => none

/-- Total version of `codonIdx` (defaulting to 0), used where the source
calls `to_index` on codons known to lie in the alphabet. -/
def codonIdxD (t : List Char) : Nat := (codonIdx t).getD 0

/-- Consecutive non-overlapping triplets of a sequence; a trailing fragment
of fewer than 3 symbols is dropped. -/
def chunk3 : List Char → List (List Char)
  | a :: b :: c :: rest => [a, b, c] :: chunk3 rest
  | _ => []

/-- Modelled from the spec: bulk encoding of an (already truncated) sequence
into one codon index per triplet (`KmerAlphabet.to_indices`); fails when
some triplet contains a symbol outside the base alphabet. -/
def toIndices : List (List Char) → Option (List Nat)
  | [] => some []
  | t :: ts =>
    match codonIdx t, toIndices ts with
    | some i, some rest => some (i :: rest)
    | _, _ => none

/-- Modelled from the spec: Watson-Crick complement of a single base (part
of the external moltype). Symbols outside the alphabet are left unchanged;
they never reach this function under the claims' hypotheses. -/
def complement : Char → Char
  | 'T' => 'A'
  | 'A' => 'T'
  | 'C' => 'G'
  | 'G' => 'C'
  | c => c

/-- Modelled from the spec: reverse complement of a sequence
(`moltype.rc`). -/
def rc (s : List Char) : List Char := (s.map complement).reverse

/-- Modelled from the spec: `new_alphabet.convert_alphabet(src, dst)` builds
a 256-entry byte translation table sending byte `src[i]` to `dst[i]` and
leaving every other byte unchanged (Python `bytes.maketrans`). The key lists
used in this module are pairwise distinct, so first-match lookup agrees
with the table. -/
def convertAlphabet (keys : List Nat) (vals : List Char) (j : Nat) : Char :=
  match (keys.zip vals).find? (fun p => p.1 == j) with
  | some p => p.2
  | none => Char.ofNat j

/-- The derived state of a `GeneticCode` (the dataclass fields populated by
`__post_init__`). Codons are 3-element `List Char`s; the Python sets
`_stop_codons` and `_start_codons` are modelled as lists in construction
order. -/
structure GCModel where
  ID : Int
  name : String
  codonToAa : List (List Char × Char)
  stops : List (List Char)
  starts : List (List Char)
  sense : List (List Char)
  anticodons : List (List Char)
  translatePlus : Nat → Char
  translateMinus : Nat → Char

/-- Dictionary lookup in the codon-to-amino-acid mapping
(`self._codon_to_aa.get(key)`). -/
def lookupAa (c2a : List (List Char × Char)) (t : List Char) : Option Char :=
  (c2a.find? (fun p => p.1 == t)).map (fun p => p.2)

/-- Function `_get_start_codon_indices`: the positions at which the start-codon map
carries an `'M'`. -/
def startCodonIndices (sm : List Char) : List Nat :=
  sm.enum.filterMap (fun p => if p.2 = 'M' then some p.1 else none)

/-- The reverse mapping built by `_make_mappings` (`_aa_to_codon`, a
defaultdict of sets whose members are inserted in codon-alphabet order),
combined with the `.get(item, set())` access of `__getitem__`: the codons a
given amino acid maps to, in codon-alphabet order. -/
def aaToCodonGet (gc : GCModel) (a : Char) : List (List Char) :=
  gc.codonToAa.filterMap (fun p => if p.2 = a then some p.1 else none)

/-- The fields `__post_init__` derives, computed without the failure checks
(used by `mkGeneticCode` once its checks pass, and for the registry, whose
25 definitions all construct successfully). `codonList.zip cs` is the
`_codon_to_aa` dict built by `_make_mappings`: its keys are distinct, and
Python's `zip` truncates to the shorter argument exactly as `List.zip`
does. -/
def buildGC (id : Int) (name : String) (cs : List Char) (sm : List Char) : GCModel :=
  let c2a := codonList.zip cs
  { ID := id
    name := name
    codonToAa := c2a
    stops := c2a.filterMap (fun p => if p.2 = '*' then some p.1 else none)
    starts := (startCodonIndices sm).filterMap (fun i => codonList.get? i)
    sense := codonList.filter (fun c => !(lookupAa c2a c == some '*'))
    anticodons := codonList.map rc
    translatePlus := convertAlphabet (codonList.map codonIdxD) cs
    translateMinus := convertAlphabet ((codonList.map rc).map codonIdxD) cs }

/-- Failure kinds observable while constructing a `GeneticCode`. The Python
class `GeneticCodeInitError` is defined in the source but never raised; its
constructor is kept here so that that fact can be stated. -/
inductive CtorErr where
  | indexError
  | keyError
  | assertionError
  | geneticCodeInitError
deriving DecidableEq

/-- Construction of a `GeneticCode` (`__post_init__`) with its observable failure
points, in source order: building the start-codon set indexes
`self.codons[i]` and fails (IndexError) when the start-codon map marks a
position at 64 or beyond; building `_sense_codons` reads
`self._codon_to_aa[c]` for every canonical codon and fails (KeyError) when
the code sequence is too short to cover all 64 codons; `_make_converter`
asserts that the code sequence has length exactly 64 (AssertionError). -/
def mkGeneticCode (id : Int) (name : String) (cs : List Char) (sm : List Char) :
    Except CtorErr GCModel :=
  let c2a := codonList.zip cs
  if ¬ (∀ i ∈ startCodonIndices sm, i < 64) then .error .indexError
  else if ¬ (∀ c ∈ codonList, (lookupAa c2a c).isSome = true) then .error .keyError
  else if ¬ cs.length = 64 then .error .assertionError
  else .ok (buildGC id name cs sm)

/-- The frame-offset step of `translate`: Python's `dna[start:]`, which for
a negative `start` counts from the end of the sequence and clamps at 0.
(The source skips the slice when `start == 0`; `dna[0:]` is the same
list.) -/
def pySliceFrom (start : Int) (dna : List Char) : List Char :=
  if start < 0 then dna.drop ((dna.length : Int) + start).toNat
  else dna.drop start.toNat

/-- The truncation step of `translate`: `dna[:-diff]` for
`diff = len(dna) % 3` when `diff != 0`, i.e. the largest prefix whose
length is a multiple of 3. -/
def truncToCodons (s : List Char) : List Char := s.take (s.length - s.length % 3)

/-- Method `GeneticCode.translate`: drop the first `start` characters (Python slice
semantics), truncate the remainder to a multiple of 3, encode it into codon
indices, map them through the plus- or minus-strand byte table, and reverse
the resulting amino-acid string in the minus-strand case. Encoding a symbol
outside the base alphabet fails (`none`). -/
def translate (gc : GCModel) (dna : List Char) (start : Int) (rcFlag : Bool) :
    Option (List Char) :=
  match toIndices (chunk3 (truncToCodons (pySliceFrom start dna))) with
  | none => none
  | some idxs =>
    if rcFlag then some ((idxs.map gc.translateMinus).reverse)
    else some (idxs.map gc.translatePlus)

/-- Result of `GeneticCode.__getitem__`: a codon set for a length-1 key, an
amino-acid character for a length-3 key. -/
inductive ItemResult where
  | codons (cs : List (List Char))
  | aa (c : Char)
deriving DecidableEq

/-- The `InvalidCodonError` raised by `__getitem__`. -/
inductive QueryErr where
  | invalidCodon
deriving DecidableEq

/-- The codon normalization performed by `__getitem__`: uppercase first,
then replace `U` by `T`. -/
def normalizeCodon (l : List Char) : List Char :=
  (l.map Char.toUpper).map (fun c => if c = 'U' then 'T' else c)

/-- Method `GeneticCode.__getitem__`: a length-1 item is an amino-acid query
returning its codon set (empty when absent); an item whose length is
neither 1 nor 3 raises `InvalidCodonError`; a length-3 item is normalized
and looked up in `_codon_to_aa`, defaulting to `'X'`. -/
def getitem (gc : GCModel) (item : String) : Except QueryErr ItemResult :=
  let l := item.toList
  if l.length = 1 then .ok (.codons (aaToCodonGet gc (l.getD 0 ' ')))
  else if ¬ l.length = 3 then .error .invalidCodon
  else .ok (.aa ((lookupAa gc.codonToAa (normalizeCodon l)).getD 'X'))

/-- Method `GeneticCode.sixframes`: the product of strands `"+", "-"` with frames
0, 1, 2 (strand-major), each paired with that frame's translation. -/
def sixframes (gc : GCModel) (seq : List Char) :
    List (String × Nat × Option (List Char)) :=
  ["+", "-"].flatMap fun strand =>
    (List.range 3).map fun fr =>
      (strand, fr, translate gc seq (fr : Int) (strand == "-"))

/-- Modelled from the spec: the single-letter amino-acid keys of the
external `IUPAC_PROTEIN_code_aa` mapping that `to_table` iterates. Only the
existence of one fixed key order matters to the claims below, not the order
itself. -/
def iupacAaCodes : List Char :=
  ['A', 'C', 'D', 'E', 'F', 'G', 'H', 'I', 'K', 'L',
   'M', 'N', 'P', 'Q', 'R', 'S', 'T', 'V', 'W', 'Y']

/-- Modelled from the spec: the data that `str(self.to_table())` depends on,
namely the table title (`to_table` passes `title=self.name`) and, for each
amino acid in the fixed key order, its comma-joined codon set. The external
`Table` string rendering is taken to be injective in this data, and the
comma-joined codon set is kept as a list (comma-joining distinct
fixed-length-3 strings is itself injective). -/
structure TableModel where
  title : String
  rows : List (Char × List (List Char))
deriving DecidableEq

/-- Method `GeneticCode.to_table`, reduced to the data its string rendering
depends on. -/
def toTable (gc : GCModel) : TableModel :=
  { title := gc.name
    rows := iupacAaCodes.map fun code => (code, aaToCodonGet gc code) }

/-- Method `GeneticCode.__eq__`: `str(self) == str(other)`, where `str` is the
rendering of `to_table()`. -/
def gcEq (a b : GCModel) : Prop := toTable a = toTable b

/-- A registry key: an integer ID or a name string. -/
inductive CodeKey where
  | num (n : Int)
  | str (v : String)
deriving DecidableEq

/-- The NCBI code definitions (`code_mapping` in the source) in source
order: (code sequence, ID, name, start-codon map). -/
def codeMapping : List (String × Int × String × String) :=
  [("FFLLSSSSYY**CC*WLLLLPPPPHHQQRRRRIIIMTTTTNNKKSSRRVVVVAAAADDEEGGGG",
    1, "Standard",
    "---M---------------M---------------M----------------------------"),
   ("FFLLSSSSYY**CCWWLLLLPPPPHHQQRRRRIIMMTTTTNNKKSS**VVVVAAAADDEEGGGG",
    2, "Vertebrate Mitochondrial",
    "--------------------------------MMMM---------------M------------"),
   ("FFLLSSSSYY**CCWWTTTTPPPPHHQQRRRRIIMMTTTTNNKKSSRRVVVVAAAADDEEGGGG",
    3, "Yeast Mitochondrial",
    "----------------------------------MM---------------M------------"),
   ("FFLLSSSSYY**CCWWLLLLPPPPHHQQRRRRIIIMTTTTNNKKSSRRVVVVAAAADDEEGGGG",
    4, "Mold Mitochondrial; Protozoan Mitochondrial; Coelenterate Mitochondrial; Mycoplasma; Spiroplasma",
    "--MM---------------M------------MMMM---------------M------------"),
   ("FFLLSSSSYY**CCWWLLLLPPPPHHQQRRRRIIMMTTTTNNKKSSSSVVVVAAAADDEEGGGG",
    5, "Invertebrate Mitochondrial",
    "---M----------------------------MMMM---------------M------------"),
   ("FFLLSSSSYYQQCC*WLLLLPPPPHHQQRRRRIIIMTTTTNNKKSSRRVVVVAAAADDEEGGGG",
    6, "Ciliate Nuclear; Dasycladacean Nuclear; Hexamita Nuclear",
    "-----------------------------------M----------------------------"),
   ("FFLLSSSSYY**CCWWLLLLPPPPHHQQRRRRIIIMTTTTNNNKSSSSVVVVAAAADDEEGGGG",
    9, "Echinoderm Mitochondrial; Flatworm Mitochondrial",
    "-----------------------------------M---------------M------------"),
   ("FFLLSSSSYY**CCCWLLLLPPPPHHQQRRRRIIIMTTTTNNKKSSRRVVVVAAAADDEEGGGG",
    10, "Euplotid Nuclear",
    "-----------------------------------M----------------------------"),
   ("FFLLSSSSYY**CC*WLLLLPPPPHHQQRRRRIIIMTTTTNNKKSSRRVVVVAAAADDEEGGGG",
    11, "Bacterial, Archaeal and Plant Plastid",
    "---M---------------M------------MMMM---------------M------------"),
   ("FFLLSSSSYY**CC*WLLLSPPPPHHQQRRRRIIIMTTTTNNKKSSRRVVVVAAAADDEEGGGG",
    12, "Alternative Yeast Nuclear",
    "-------------------M---------------M----------------------------"),
   ("FFLLSSSSYY**CCWWLLLLPPPPHHQQRRRRIIMMTTTTNNKKSSGGVVVVAAAADDEEGGGG",
    13, "Ascidian Mitochondrial",
    "---M------------------------------MM---------------M------------"),
   ("FFLLSSSSYYY*CCWWLLLLPPPPHHQQRRRRIIIMTTTTNNNKSSSSVVVVAAAADDEEGGGG",
    14, "Alternative Flatworm Mitochondrial",
    "-----------------------------------M----------------------------"),
   ("FFLLSSSSYY*QCC*WLLLLPPPPHHQQRRRRIIIMTTTTNNKKSSRRVVVVAAAADDEEGGGG",
    15, "Blepharisma Macronuclear",
    "-----------------------------------M----------------------------"),
   ("FFLLSSSSYY*LCC*WLLLLPPPPHHQQRRRRIIIMTTTTNNKKSSRRVVVVAAAADDEEGGGG",
    16, "Chlorophycean Mitochondrial",
    "-----------------------------------M----------------------------"),
   ("FFLLSSSSYY**CCWWLLLLPPPPHHQQRRRRIIMMTTTTNNNKSSSSVVVVAAAADDEEGGGG",
    21, "Trematode Mitochondrial",
    "-----------------------------------M---------------M------------"),
   ("FFLLSS*SYY*LCC*WLLLLPPPPHHQQRRRRIIIMTTTTNNKKSSRRVVVVAAAADDEEGGGG",
    22, "Scenedesmus obliquus Mitochondrial",
    "-----------------------------------M----------------------------"),
   ("FF*LSSSSYY**CC*WLLLLPPPPHHQQRRRRIIIMTTTTNNKKSSRRVVVVAAAADDEEGGGG",
    23, "Thraustochytrium Mitochondrial",
    "--------------------------------M--M---------------M------------"),
   ("FFLLSSSSYY**CCWWLLLLPPPPHHQQRRRRIIIMTTTTNNKKSSSKVVVVAAAADDEEGGGG",
    24, "Rhabdopleuridae Mitochondrial",
    "---M---------------M---------------M---------------M------------"),
   ("FFLLSSSSYY**CCGWLLLLPPPPHHQQRRRRIIIMTTTTNNKKSSRRVVVVAAAADDEEGGGG",
    25, "Candidate Division SR1 and Gracilibacteria",
    "---M-------------------------------M---------------M------------"),
   ("FFLLSSSSYY**CC*WLLLAPPPPHHQQRRRRIIIMTTTTNNKKSSRRVVVVAAAADDEEGGGG",
    26, "Pachysolen tannophilus Nuclear",
    "-------------------M---------------M----------------------------"),
   ("FFLLSSSSYYQQCCWWLLLLPPPPHHQQRRRRIIIMTTTTNNKKSSRRVVVVAAAADDEEGGGG",
    27, "Karyorelict Nuclear",
    "-----------------------------------M----------------------------"),
   ("FFLLSSSSYYQQCCWWLLLLPPPPHHQQRRRRIIIMTTTTNNKKSSRRVVVVAAAADDEEGGGG",
    28, "Condylostoma Nuclear",
    "-----------------------------------M----------------------------"),
   ("FFLLSSSSYYYYCC*WLLLLPPPPHHQQRRRRIIIMTTTTNNKKSSRRVVVVAAAADDEEGGGG",
    29, "Mesodinium Nuclear",
    "-----------------------------------M----------------------------"),
   ("FFLLSSSSYYEECC*WLLLLPPPPHHQQRRRRIIIMTTTTNNKKSSRRVVVVAAAADDEEGGGG",
    30, "Peritrich Nuclear",
    "-----------------------------------M----------------------------"),
   ("FFLLSSSSYYEECCWWLLLLPPPPHHQQRRRRIIIMTTTTNNKKSSRRVVVVAAAADDEEGGGG",
    31, "Blastocrithidia Nuclear",
    "-----------------------------------M----------------------------"),
   ("FFLLSSSSYY*WCC*WLLLLPPPPHHQQRRRRIIIMTTTTNNKKSSRRVVVVAAAADDEEGGGG",
    32, "Balanophoraceae Plastid",
    "---M---------------M------------MMMM---------------M------------"),
   ("FFLLSSSSYYY*CCWWLLLLPPPPHHQQRRRRIIIMTTTTNNKKSSSKVVVVAAAADDEEGGGG",
    33, "Cephalodiscidae Mitochondrial",
    "---M---------------M---------------M---------------M------------")]

/-- The registry `_CODES`: each definition is registered under its integer
ID and under its name, both entries sharing the one constructed code. -/
def codesList : List (CodeKey × GCModel) :=
  codeMapping.flatMap fun m =>
    let gc := buildGC m.2.1 m.2.2.1 m.1.toList m.2.2.2.toList
    [(.num m.2.1, gc), (.str m.2.2.1, gc)]

/-- Modelled from the spec: conversion of a string by the Python `int`
builtin succeeds exactly on nonempty decimal-digit strings (signs and
surrounding whitespace, which no registry key involves, are not
modelled). -/
def parseNatDigits (l : List Char) : Option Nat :=
  if l ≠ [] ∧ ∀ c ∈ l, c.isDigit then
    some (l.foldl (fun n c => n * 10 + (c.toNat - 48)) 0)
  else none

/-- The key normalization at the top of `get_code`: Python `int(x)` applied
under `contextlib.suppress(ValueError)` — a numeric-looking key is turned
into integer form, any other string is kept, an integer is returned
unchanged. -/
def normalizeKey : CodeKey → CodeKey
  | .num n => .num n
  | .str v =>
    match parseNatDigits v.toList with
    | some n => .num (n : Int)
    | none => .str v

/-- The domain error `GeneticCodeError` raised by `get_code` when no
registry entry matches (the spec's `UnknownCodeError`). -/
inductive LookupErr where
  | unknownCode
deriving DecidableEq

/-- Function `get_code`: normalize the key, then look it up in the registry. -/
def get_code (k : CodeKey) : Except LookupErr GCModel :=
  match codesList.find? (fun p => p.1 == normalizeKey k) with
  | some p => .ok p.2
  | none => .error .unknownCode

/-- Spec-side description of forward translation, following claim C1's
words: drop the first `start` characters, truncate the remainder to its
largest prefix whose length is a multiple of 3, and concatenate the
amino-acid characters `codon_to_aa` assigns to its consecutive triplets
(the `'X'` default is never reached when the sequence is over the base
alphabet and the code covers all 64 codons). -/
def translateSpecC1 (gc : GCModel) (s : List Char) (start : Nat) : List Char :=
  let s1 := s.drop start
  let s2 := s1.take (s1.length - s1.length % 3)
  (chunk3 s2).map fun t => (lookupAa gc.codonToAa t).getD 'X'

/-- The NCBI amino-acid string of the Standard code (ID 1). -/
def stdAA : String :=
  "FFLLSSSSYY**CC*WLLLLPPPPHHQQRRRRIIIMTTTTNNKKSSRRVVVVAAAADDEEGGGG"

/-- The start-codon map of the Standard code (ID 1). -/
def stdStarts : String :=
  "---M---------------M---------------M----------------------------"

/-- The Standard genetic code (ID 1). -/
def stdCode : GCModel := buildGC 1 "Standard" stdAA.toList stdStarts.toList

/-- Code 27 of the registry (Karyorelict Nuclear). -/
def code27 : GCModel :=
  buildGC 27 "Karyorelict Nuclear"
    "FFLLSSSSYYQQCCWWLLLLPPPPHHQQRRRRIIIMTTTTNNKKSSRRVVVVAAAADDEEGGGG".toList
    "-----------------------------------M----------------------------".toList

/-- Code 28 of the registry (Condylostoma Nuclear); its code sequence and
start-codon map coincide with those of code 27. -/
def code28 : GCModel :=
  buildGC 28 "Condylostoma Nuclear"
    "FFLLSSSSYYQQCCWWLLLLPPPPHHQQRRRRIIIMTTTTNNKKSSRRVVVVAAAADDEEGGGG".toList
    "-----------------------------------M----------------------------".toList

instance {ε α : Type} [DecidableEq ε] [DecidableEq α] : DecidableEq (Except ε α) :=
  fun a b =>
    match a, b with
    | .ok x, .ok y =>
      if h : x = y then .isTrue (by rw [h]) else .isFalse (fun hh => h (Except.ok.inj hh))
    | .error x, .error y =>
      if h : x = y then .isTrue (by rw [h]) else .isFalse (fun hh => h (Except.error.inj hh))
    | .ok _, .error _ => .isFalse (fun hh => Except.noConfusion hh)
    | .error _, .ok _ => .isFalse (fun hh => Except.noConfusion hh)

/-! ### Basic facts about the codon alphabet and the byte tables -/

/-- Concrete facts about each of the 64 canonical codons: its index, the
index's bound, its position in the codon alphabet and in the two converter
key lists, and closure of the alphabet under reverse complement. -/
theorem codon_facts : ∀ t ∈ codonList,
    codonIdx t = some (codonIdxD t)
      ∧ codonIdxD t < 64
      ∧ codonList.findIdx (fun k => k == t) = codonIdxD t
      ∧ (codonList.map codonIdxD).findIdx (fun k => k == codonIdxD t) = codonIdxD t
      ∧ ((codonList.map rc).map codonIdxD).findIdx (fun k => k == codonIdxD t)
          = codonIdxD (rc t)
      ∧ rc t ∈ codonList
      ∧ codonIdxD t ∈ codonList.map codonIdxD
      ∧ codonIdxD t ∈ (codonList.map rc).map codonIdxD := by decide

/-- The complement of a base is a base. -/
theorem complement_mem : ∀ x ∈ bases, complement x ∈ bases := by decide

/-- A triplet over the base alphabet is a canonical codon. -/
theorem mem_codonList_of_valid {a b c : Char} (ha : a ∈ bases) (hb : b ∈ bases)
    (hc : c ∈ bases) : [a, b, c] ∈ codonList := by
  simp only [codonList, List.mem_flatMap, List.mem_map]
  exact ⟨a, ha, b, hb, c, hc, rfl⟩

/-- The reverse complement of a sequence over the base alphabet stays over
the base alphabet. -/
theorem rc_valid {s : List Char} (hs : ∀ ch ∈ s, ch ∈ bases) :
    ∀ ch ∈ rc s, ch ∈ bases := by
  intro ch hch
  rw [rc, List.mem_reverse] at hch
  obtain ⟨x, hx, rfl⟩ := List.mem_map.mp hch
  exact complement_mem x (hs x hx)

/-- Reverse complement preserves length. -/
theorem rc_length (s : List Char) : (rc s).length = s.length := by simp [rc]

/-! ### Facts about `chunk3` -/

theorem chunk3_mem : ∀ (x : List Char), ∀ t ∈ chunk3 x,
    ∃ a b c, t = [a, b, c] ∧ a ∈ x ∧ b ∈ x ∧ c ∈ x
  | a :: b :: c :: rest, t, ht => by
    rw [show chunk3 (a :: b :: c :: rest) = [a, b, c] :: chunk3 rest from rfl] at ht
    rcases List.mem_cons.mp ht with h | h
    · exact ⟨a, b, c, h, by simp, by simp, by simp⟩
    · obtain ⟨a1, b1, c1, rfl, ha, hb, hc⟩ := chunk3_mem rest t h
      exact ⟨a1, b1, c1, rfl, by simp [ha], by simp [hb], by simp [hc]⟩
  | [], t, ht => absurd ht (by simp [chunk3])
  | [a], t, ht => absurd ht (by simp [chunk3])
  | [a, b], t, ht => absurd ht (by simp [chunk3])

theorem chunk3_length : ∀ x : List Char, (chunk3 x).length = x.length / 3
  | [] => by simp [chunk3]
  | [a] => by simp [chunk3]
  | [a, b] => by simp [chunk3]
  | a :: b :: c :: rest => by
    rw [show chunk3 (a :: b :: c :: rest) = [a, b, c] :: chunk3 rest from rfl]
    simp only [List.length_cons]
    rw [chunk3_length rest]
    omega

theorem chunk3_append : ∀ (x y : List Char), x.length % 3 = 0 →
    chunk3 (x ++ y) = chunk3 x ++ chunk3 y
  | [], y, _ => by simp [chunk3]
  | [a], y, h => by simp only [List.length_cons, List.length_nil] at h; omega
  | [a, b], y, h => by simp only [List.length_cons, List.length_nil] at h; omega
  | a :: b :: c :: rest, y, h => by
    have hr : rest.length % 3 = 0 := by
      simp only [List.length_cons] at h; omega
    simp only [List.cons_append]
    rw [show chunk3 (a :: b :: c :: (rest ++ y)) = [a, b, c] :: chunk3 (rest ++ y) from rfl,
      show chunk3 (a :: b :: c :: rest) = [a, b, c] :: chunk3 rest from rfl,
      chunk3_append rest y hr, List.cons_append]

/-- Chunking commutes with reverse complement: the triplets of `rc s` are
the reverse complements of the triplets of `s`, in reverse order. -/
theorem chunk3_rc : ∀ (s : List Char), s.length % 3 = 0 →
    chunk3 (rc s) = ((chunk3 s).map rc).reverse
  | [], _ => by simp [chunk3, rc]
  | [a], h => by simp only [List.length_cons, List.length_nil] at h; omega
  | [a, b], h => by simp only [List.length_cons, List.length_nil] at h; omega
  | a :: b :: c :: rest, h => by
    have hr : rest.length % 3 = 0 := by
      simp only [List.length_cons] at h; omega
    have h1 : rc (a :: b :: c :: rest)
        = rc rest ++ [complement c, complement b, complement a] := by
      simp [rc]
    rw [h1, chunk3_append _ _ (by rw [rc_length]; exact hr), chunk3_rc rest hr,
      show chunk3 [complement c, complement b, complement a]
        = [[complement c, complement b, complement a]] from rfl,
      show chunk3 (a :: b :: c :: rest) = [a, b, c] :: chunk3 rest from rfl]
    simp [rc]

/-- Every triplet of a sequence over the base alphabet is a canonical
codon. -/
theorem chunks_in_codonList {s : List Char} (hs : ∀ ch ∈ s, ch ∈ bases) :
    ∀ t ∈ chunk3 s, t ∈ codonList := by
  intro t ht
  obtain ⟨a, b, c, rfl, ha, hb, hc⟩ := chunk3_mem s t ht
  exact mem_codonList_of_valid (hs a ha) (hs b hb) (hs c hc)

/-- Encoding succeeds on a list of canonical codons and produces their
indices. -/
theorem toIndices_some : ∀ (ts : List (List Char)), (∀ t ∈ ts, t ∈ codonList) →
    toIndices ts = some (ts.map codonIdxD)
  | [], _ => rfl
  | t :: ts, h => by
    have h1 : codonIdx t = some (codonIdxD t) :=
      (codon_facts t (h t (List.mem_cons_self t ts))).1
    have h2 := toIndices_some ts (fun u hu => h u (List.mem_cons_of_mem t hu))
    simp only [toIndices, h1, h2, List.map_cons]

/-! ### Association-list / byte-table lookup -/

/-- First-match lookup in a zipped association list, located through the
position of the key in the key list. -/
theorem zip_find_eq {α : Type} [BEq α] [LawfulBEq α] :
    ∀ (keys : List α) (vals : List Char) (j : α) (i : Nat),
      keys.findIdx (fun k => k == j) = i → j ∈ keys → i < vals.length →
      (keys.zip vals).find? (fun p => p.1 == j) = some (j, vals.getD i 'X')
  | [], _, j, _, _, hmem, _ => absurd hmem (List.not_mem_nil j)
  | _ :: _, [], _, _, _, _, hlt => absurd hlt (by simp)
  | k :: ks, v :: vs, j, i, hidx, hmem, hlt => by
    rw [List.findIdx_cons] at hidx
    by_cases hk : (k == j) = true
    · have hkj : k = j := eq_of_beq hk
      rw [hk, cond_true] at hidx
      subst hidx
      have hpos : ((fun p => p.1 == j) ((k, v) : α × Char)) = true := hk
      have hstep : List.find? (fun p => p.1 == j) ((k, v) :: ks.zip vs)
          = some (k, v) := List.find?_cons_of_pos _ hpos
      rw [List.zip_cons_cons, hstep, hkj]
      rfl
    · rw [Bool.not_eq_true] at hk
      rw [hk, cond_false] at hidx
      have hmem2 : j ∈ ks := by
        rcases List.mem_cons.mp hmem with h | h
        · subst h
          rw [beq_self_eq_true] at hk
          exact absurd hk (by simp)
        · exact h
      cases i with
      | zero => omega
      | succ i1 =>
        have hi1 : ks.findIdx (fun k => k == j) = i1 := by omega
        have hlt1 : i1 < vs.length := by simpa using hlt
        have ih := zip_find_eq ks vs j i1 hi1 hmem2 hlt1
        have hneg : ¬ ((fun p => p.1 == j) ((k, v) : α × Char)) = true := by
          simp [hk]
        have hstep : List.find? (fun p => p.1 == j) ((k, v) :: ks.zip vs)
            = List.find? (fun p => p.1 == j) (ks.zip vs) :=
          List.find?_cons_of_neg _ hneg
        rw [List.zip_cons_cons, hstep, ih, List.getD_cons_succ]

/-- Evaluating a converter table at a key present in its key list. -/
theorem convertAlphabet_eq {keys : List Nat} {vals : List Char} {j i : Nat}
    (hidx : keys.findIdx (fun k => k == j) = i) (hmem : j ∈ keys)
    (hlt : i < vals.length) :
    convertAlphabet keys vals j = vals.getD i 'X' := by
  unfold convertAlphabet
  rw [zip_find_eq keys vals j i hidx hmem hlt]

/-- Looking a canonical codon up in the `_codon_to_aa` dict yields the
code-sequence character at the codon's index. -/
theorem lookupAa_zip {cs : List Char} {t : List Char} {i : Nat}
    (hidx : codonList.findIdx (fun k => k == t) = i) (hmem : t ∈ codonList)
    (hlt : i < cs.length) :
    lookupAa (codonList.zip cs) t = some (cs.getD i 'X') := by
  unfold lookupAa
  rw [zip_find_eq codonList cs t i hidx hmem hlt]
  rfl

/-- When the code sequence covers all 64 codons, `_codon_to_aa` is total on
the codon alphabet. -/
theorem lookup_all_some {cs : List Char} (h64 : cs.length = 64) :
    ∀ c ∈ codonList, (lookupAa (codonList.zip cs) c).isSome = true := by
  intro c hc
  have hf := codon_facts c hc
  rw [lookupAa_zip hf.2.2.1 hc (by omega)]
  rfl

/-! ### Translation lemmas -/

/-- For a nonnegative `start`, the Python slice is `List.drop`. -/
theorem pySliceFrom_natCast (start : Nat) (s : List Char) :
    pySliceFrom (start : Int) s = s.drop start := by
  unfold pySliceFrom
  rw [if_neg (by omega), Int.toNat_natCast]

theorem pySliceFrom_subset (start : Int) (s : List Char) :
    pySliceFrom start s ⊆ s := by
  unfold pySliceFrom
  split
  · exact List.drop_subset _ _
  · exact List.drop_subset _ _

theorem truncToCodons_subset (s : List Char) : truncToCodons s ⊆ s :=
  List.take_subset _ _

/-- A sequence whose length is a multiple of 3 is not truncated. -/
theorem truncToCodons_of_mod (s : List Char) (h3 : s.length % 3 = 0) :
    truncToCodons s = s := by
  unfold truncToCodons
  rw [h3, Nat.sub_zero, List.take_length]

/-- The plus-strand byte table evaluated at a canonical codon's index is the
code-sequence character at that index. -/
theorem translatePlus_eval (id : Int) (nm : String) {cs : List Char}
    (h64 : cs.length = 64) (sm : List Char) {t : List Char} (ht : t ∈ codonList) :
    (buildGC id nm cs sm).translatePlus (codonIdxD t) = cs.getD (codonIdxD t) 'X' := by
  have hf := codon_facts t ht
  show convertAlphabet (codonList.map codonIdxD) cs (codonIdxD t) = _
  exact convertAlphabet_eq hf.2.2.2.1 hf.2.2.2.2.2.2.1 (by omega)

/-- The minus-strand byte table evaluated at a canonical codon's index is
the code-sequence character at the index of the codon's reverse
complement. -/
theorem translateMinus_eval (id : Int) (nm : String) {cs : List Char}
    (h64 : cs.length = 64) (sm : List Char) {t : List Char} (ht : t ∈ codonList) :
    (buildGC id nm cs sm).translateMinus (codonIdxD t)
      = cs.getD (codonIdxD (rc t)) 'X' := by
  have hf := codon_facts t ht
  have hrc := codon_facts (rc t) hf.2.2.2.2.2.1
  show convertAlphabet ((codonList.map rc).map codonIdxD) cs (codonIdxD t) = _
  exact convertAlphabet_eq hf.2.2.2.2.1 hf.2.2.2.2.2.2.2 (by omega)

/-- The `_codon_to_aa` entry of a canonical codon, with the `.get` default
applied, is the code-sequence character at the codon's index. -/
theorem lookupAa_getD (id : Int) (nm : String) {cs : List Char}
    (h64 : cs.length = 64) (sm : List Char) {t : List Char} (ht : t ∈ codonList) :
    (lookupAa (buildGC id nm cs sm).codonToAa t).getD 'X'
      = cs.getD (codonIdxD t) 'X' := by
  have hf := codon_facts t ht
  show (lookupAa (codonList.zip cs) t).getD 'X' = _
  rw [lookupAa_zip hf.2.2.1 ht (by omega)]
  rfl

/-- Forward translation of a sequence over the base alphabet agrees with
the spec-side description `translateSpecC1`. -/
theorem translate_forward (id : Int) (nm : String) {cs : List Char}
    (h64 : cs.length = 64) (sm : List Char) {s : List Char}
    (hs : ∀ ch ∈ s, ch ∈ bases) (start : Nat) :
    translate (buildGC id nm cs sm) s (start : Int) false
      = some (translateSpecC1 (buildGC id nm cs sm) s start) := by
  unfold translate translateSpecC1
  rw [pySliceFrom_natCast]
  have hvalid : ∀ t ∈ chunk3 (truncToCodons (s.drop start)), t ∈ codonList := by
    apply chunks_in_codonList
    intro ch hch
    exact hs ch (List.drop_subset _ _ (truncToCodons_subset _ hch))
  rw [toIndices_some _ hvalid]
  show some (((chunk3 (truncToCodons (s.drop start))).map codonIdxD).map
        ((buildGC id nm cs sm).translatePlus))
      = some ((chunk3 (truncToCodons (s.drop start))).map
          (fun t => (lookupAa (buildGC id nm cs sm).codonToAa t).getD 'X'))
  congr 1
  rw [List.map_map]
  apply List.map_congr_left
  intro t ht
  have hmem := hvalid t ht
  show (buildGC id nm cs sm).translatePlus (codonIdxD t) = _
  rw [translatePlus_eval id nm h64 sm hmem, lookupAa_getD id nm h64 sm hmem]

/-- Reverse-complement translation of a multiple-of-3 sequence over the
base alphabet equals forward translation of the reverse complement. -/
theorem translate_rc_eq (id : Int) (nm : String) {cs : List Char}
    (h64 : cs.length = 64) (sm : List Char) {s : List Char}
    (hs : ∀ ch ∈ s, ch ∈ bases) (h3 : s.length % 3 = 0) :
    translate (buildGC id nm cs sm) s 0 true
      = translate (buildGC id nm cs sm) (rc s) 0 false := by
  unfold translate
  have h0 : pySliceFrom 0 s = s := by
    unfold pySliceFrom
    rw [if_neg (by omega), Int.toNat_zero, List.drop_zero]
  have h0r : pySliceFrom 0 (rc s) = rc s := by
    unfold pySliceFrom
    rw [if_neg (by omega), Int.toNat_zero, List.drop_zero]
  rw [h0, h0r, truncToCodons_of_mod s h3,
    truncToCodons_of_mod (rc s) (by rw [rc_length]; exact h3)]
  have hvalid : ∀ t ∈ chunk3 s, t ∈ codonList := chunks_in_codonList hs
  have hvalidrc : ∀ t ∈ chunk3 (rc s), t ∈ codonList :=
    chunks_in_codonList (rc_valid hs)
  rw [toIndices_some _ hvalid, toIndices_some _ hvalidrc]
  show some ((((chunk3 s).map codonIdxD).map
        ((buildGC id nm cs sm).translateMinus)).reverse)
      = some (((chunk3 (rc s)).map codonIdxD).map
          ((buildGC id nm cs sm).translatePlus))
  congr 1
  rw [chunk3_rc s h3, List.map_reverse, List.map_reverse]
  congr 1
  rw [List.map_map, List.map_map, List.map_map]
  apply List.map_congr_left
  intro t ht
  have hmem := hvalid t ht
  have hf := codon_facts t hmem
  show (buildGC id nm cs sm).translateMinus (codonIdxD t)
      = (buildGC id nm cs sm).translatePlus (codonIdxD (rc t))
  rw [translateMinus_eval id nm h64 sm hmem,
    translatePlus_eval id nm h64 sm hf.2.2.2.2.2.1]

/-- Translation never fails on a sequence over the base alphabet, whatever
the frame offset and strand. -/
theorem translate_isSome_of_valid (gc : GCModel) {dna : List Char}
    (hs : ∀ ch ∈ dna, ch ∈ bases) (start : Int) (rcFlag : Bool) :
    ∃ r, translate gc dna start rcFlag = some r := by
  unfold translate
  have hvalid : ∀ t ∈ chunk3 (truncToCodons (pySliceFrom start dna)),
      t ∈ codonList := by
    apply chunks_in_codonList
    intro ch hch
    exact hs ch (pySliceFrom_subset start dna (truncToCodons_subset _ hch))
  rw [toIndices_some _ hvalid]
  cases rcFlag
  · exact ⟨_, rfl⟩
  · exact ⟨_, rfl⟩

/-! ### Claim theorems -/

/-- C1: `translate(s, start, reverse_complement=false)` drops the first
`start` characters (empty when `start ≥ len(s)`), truncates the remainder
to the largest prefix whose length is a multiple of 3, and concatenates the
`codon_to_aa` images of the consecutive non-overlapping triplets; and when
`len(s)` is a multiple of 3 the translation at `start = 0` has length
`len(s)/3`. -/
theorem c1_forward_frame_truncation (id : Int) (nm : String) {cs : List Char}
    (h64 : cs.length = 64) (sm : List Char) {s : List Char}
    (hs : ∀ ch ∈ s, ch ∈ bases) (start : Nat) :
    translate (buildGC id nm cs sm) s (start : Int) false
        = some (translateSpecC1 (buildGC id nm cs sm) s start)
      ∧ (s.length % 3 = 0 →
          translate (buildGC id nm cs sm) s ((0 : Nat) : Int) false
              = some (translateSpecC1 (buildGC id nm cs sm) s 0)
            ∧ (translateSpecC1 (buildGC id nm cs sm) s 0).length
                = s.length / 3) := by
  refine ⟨translate_forward id nm h64 sm hs start,
    fun h3 => ⟨translate_forward id nm h64 sm hs 0, ?_⟩⟩
  show ((chunk3 (truncToCodons (s.drop 0))).map _).length = _
  rw [List.drop_zero, truncToCodons_of_mod s h3, List.length_map, chunk3_length]

/-- Witness for C1 at the Standard code, `s = "ATG"`, `start = 0`. -/
theorem c1_witness :
    stdAA.toList.length = 64
      ∧ (∀ ch ∈ (['A', 'T', 'G'] : List Char), ch ∈ bases)
      ∧ translate (buildGC 1 "Standard" stdAA.toList stdStarts.toList)
            ['A', 'T', 'G'] ((0 : Nat) : Int) false
          = some (translateSpecC1
              (buildGC 1 "Standard" stdAA.toList stdStarts.toList)
              ['A', 'T', 'G'] 0) :=
  ⟨by decide, by decide,
    (c1_forward_frame_truncation 1 "Standard" (by decide) stdStarts.toList
      (by decide) 0).1⟩

/-- C2: reverse-complement translation maps each codon index through the
anticodon-keyed table and reverses the whole resulting string, so it equals
forward translation of the reverse complement; for the Standard code,
`translate("ATG") = "M"` and `translate("CAT", reverse_complement=true) =
"M"`. -/
theorem c2_strand_symmetry (id : Int) (nm : String) {cs : List Char}
    (h64 : cs.length = 64) (sm : List Char) {s : List Char}
    (hs : ∀ ch ∈ s, ch ∈ bases) (h3 : s.length % 3 = 0) :
    translate (buildGC id nm cs sm) s 0 true
        = translate (buildGC id nm cs sm) (rc s) 0 false
      ∧ translate stdCode ['A', 'T', 'G'] 0 false = some ['M']
      ∧ translate stdCode ['C', 'A', 'T'] 0 true = some ['M'] :=
  ⟨translate_rc_eq id nm h64 sm hs h3, by decide, by decide⟩

/-- Witness for C2 at the Standard code and `s = "CAT"`. -/
theorem c2_witness :
    stdAA.toList.length = 64
      ∧ (∀ ch ∈ (['C', 'A', 'T'] : List Char), ch ∈ bases)
      ∧ (['C', 'A', 'T'] : List Char).length % 3 = 0
      ∧ translate (buildGC 1 "Standard" stdAA.toList stdStarts.toList)
            ['C', 'A', 'T'] 0 true
          = translate (buildGC 1 "Standard" stdAA.toList stdStarts.toList)
              (rc ['C', 'A', 'T']) 0 false :=
  ⟨by decide, by decide, by decide,
    (c2_strand_symmetry 1 "Standard" (by decide) stdStarts.toList
      (by decide) (by decide)).1⟩

/-- C10: a negative `start` with `-len(s) ≤ start < 0` is not rejected:
`translate` silently slices from the end of the sequence (Python slice
semantics) and returns the translation of the last `|start|` characters. -/
theorem c10_negative_start (gc : GCModel) (s : List Char) (start : Int)
    (_hlow : -(s.length : Int) ≤ start) (hneg : start < 0)
    (hs : ∀ ch ∈ s, ch ∈ bases) (rcFlag : Bool) :
    translate gc s start rcFlag
        = translate gc (s.drop (s.length - (-start).toNat)) 0 rcFlag
      ∧ ∃ r, translate gc s start rcFlag = some r := by
  constructor
  · unfold translate
    have h1 : pySliceFrom start s = s.drop (s.length - (-start).toNat) := by
      unfold pySliceFrom
      rw [if_pos hneg]
      congr 1
      omega
    have h2 : pySliceFrom 0 (s.drop (s.length - (-start).toNat))
        = s.drop (s.length - (-start).toNat) := by
      unfold pySliceFrom
      rw [if_neg (by omega), Int.toNat_zero, List.drop_zero]
    rw [h1, h2]
  · exact translate_isSome_of_valid gc hs start rcFlag

/-- Witness for C10 at the Standard code, `s = "CAT"`, `start = -3`. -/
theorem c10_witness :
    translate stdCode ['C', 'A', 'T'] (-3) false
        = translate stdCode
            (['C', 'A', 'T'].drop (['C', 'A', 'T'].length - (-(-3 : Int)).toNat))
            0 false
      ∧ ∃ r, translate stdCode ['C', 'A', 'T'] (-3) false = some r :=
  c10_negative_start stdCode ['C', 'A', 'T'] (-3) (by decide) (by decide)
    (by decide) false

/-- C3 (counterexample): construction does not enforce the claimed
length-64 precondition with `GeneticCodeInitError`. An empty start-codon
map (length 0, not 64) is accepted and yields an instance, and a 63-long
amino-acid string fails with a KeyError (a plain mapping error), not with
`GeneticCodeInitError`. -/
theorem c3_counterexample :
    (mkGeneticCode 1 "Standard" stdAA.toList []).isOk = true
      ∧ mkGeneticCode 1 "Standard" (stdAA.toList.take 63) stdStarts.toList
          = .error CtorErr.keyError := by
  constructor
  · rfl
  · rfl

/-- C3 (amended): construction never fails with `GeneticCodeInitError`
(that exception class is never raised); it succeeds exactly when the
amino-acid string has length 64 and every `'M'` position of the start
marker is below 64 — in particular a start-marker string shorter than 64
is accepted silently. On failure no instance is produced (the other
conjunct of the claim). -/
theorem c3_construction_checks (id : Int) (nm : String) (cs sm : List Char) :
    mkGeneticCode id nm cs sm ≠ .error CtorErr.geneticCodeInitError
      ∧ ((mkGeneticCode id nm cs sm).isOk = true ↔
          cs.length = 64 ∧ ∀ i ∈ startCodonIndices sm, i < 64) := by
  unfold mkGeneticCode
  by_cases h1 : ∀ i ∈ startCodonIndices sm, i < 64
  · rw [if_neg (not_not_intro h1)]
    by_cases h2 : ∀ c ∈ codonList, (lookupAa (codonList.zip cs) c).isSome = true
    · rw [if_neg (not_not_intro h2)]
      by_cases h3 : cs.length = 64
      · rw [if_neg (not_not_intro h3)]
        exact ⟨fun h => Except.noConfusion h, iff_of_true rfl ⟨h3, h1⟩⟩
      · rw [if_pos h3]
        exact ⟨fun h => absurd (Except.error.inj h) (by decide),
          iff_of_false (fun h => Bool.noConfusion h) (fun hc => h3 hc.1)⟩
    · rw [if_pos h2]
      exact ⟨fun h => absurd (Except.error.inj h) (by decide),
        iff_of_false (fun h => Bool.noConfusion h)
          (fun hc => h2 (lookup_all_some hc.1))⟩
  · rw [if_pos h1]
    exact ⟨fun h => absurd (Except.error.inj h) (by decide),
      iff_of_false (fun h => Bool.noConfusion h) (fun hc => h1 hc.2)⟩

/-- C4 (counterexample): a length-1 token does not raise
`InvalidCodonError` although its normalized length is not 3 — `gc["A"]` is
interpreted as an amino-acid query and returns a codon set. -/
theorem c4_counterexample :
    getitem stdCode "A" = .ok (.codons (aaToCodonGet stdCode 'A'))
      ∧ ¬ getitem stdCode "A" = .error QueryErr.invalidCodon
      ∧ "A".toList.length ≠ 3 := by
  refine ⟨rfl, ?_, by decide⟩
  intro h
  rw [show getitem stdCode "A" = .ok (.codons (aaToCodonGet stdCode 'A')) from rfl]
    at h
  exact Except.noConfusion h

/-- C4 (amended): `__getitem__` raises `InvalidCodonError` exactly when the
token's length is neither 1 nor 3; a length-1 token is instead treated as
an amino-acid query returning its codon set; a length-3 token is
uppercased, `U` is replaced by `T`, and the mapped amino acid is returned,
with the sentinel `'X'` when the normalized triplet is not a key of
`codon_to_aa`. -/
theorem c4_getitem_dispatch (gc : GCModel) (item : String) :
    ((getitem gc item).isOk = true ↔
        item.toList.length = 1 ∨ item.toList.length = 3)
      ∧ (getitem gc item = .error QueryErr.invalidCodon ↔
          ¬ (item.toList.length = 1 ∨ item.toList.length = 3))
      ∧ (item.toList.length = 3 →
          getitem gc item
            = .ok (.aa ((lookupAa gc.codonToAa (normalizeCodon item.toList)).getD 'X')))
      ∧ (item.toList.length = 1 →
          getitem gc item
            = .ok (.codons (aaToCodonGet gc (item.toList.getD 0 ' ')))) := by
  unfold getitem
  by_cases h1 : item.toList.length = 1
  · rw [if_pos h1]
    exact ⟨iff_of_true rfl (Or.inl h1),
      iff_of_false (fun h => Except.noConfusion h) (not_not_intro (Or.inl h1)),
      fun h3 => by omega, fun _ => rfl⟩
  · rw [if_neg h1]
    by_cases h3 : item.toList.length = 3
    · rw [if_neg (not_not_intro h3)]
      exact ⟨iff_of_true rfl (Or.inr h3),
        iff_of_false (fun h => Except.noConfusion h) (not_not_intro (Or.inr h3)),
        fun _ => rfl, fun h => absurd h h1⟩
    · rw [if_pos h3]
      refine ⟨iff_of_false (fun h => Bool.noConfusion h) ?_,
        iff_of_true rfl ?_, fun h => absurd h h3, fun h => absurd h h1⟩
      · rintro (h | h)
        exacts [h1 h, h3 h]
      · rintro (h | h)
        exacts [h1 h, h3 h]

/-- C5 (counterexample): two codes with identical codon-to-amino-acid
tables (registry codes 27 and 28, whose code sequences and start maps
coincide) but different names compare unequal, because `__eq__` compares
the rendered tables whose title is the code's name. -/
theorem c5_counterexample :
    code27.codonToAa = code28.codonToAa
      ∧ code27.stops = code28.stops
      ∧ code27.starts = code28.starts
      ∧ code27.ID ≠ code28.ID
      ∧ code27.name ≠ code28.name
      ∧ ¬ gcEq code27 code28 := by
  refine ⟨rfl, rfl, rfl, by decide, by decide, ?_⟩
  intro h
  have ht : (toTable code27).title = (toTable code28).title :=
    congrArg TableModel.title h
  exact absurd ht (by decide)

/-- C5 (amended): equality of two Genetic Codes holds iff their names are
equal and their per-amino-acid codon sets agree on the rendered key order;
in particular two codes built from the same code sequence and the same name
are equal whatever their IDs and start maps, while an identical table under
a different name compares unequal. -/
theorem c5_equality_characterization :
    (∀ a b : GCModel,
        gcEq a b ↔
          a.name = b.name ∧ ∀ code ∈ iupacAaCodes,
            aaToCodonGet a code = aaToCodonGet b code)
      ∧ ∀ (id1 id2 : Int) (nm : String) (cs sm1 sm2 : List Char),
          gcEq (buildGC id1 nm cs sm1) (buildGC id2 nm cs sm2) := by
  constructor
  · intro a b
    show toTable a = toTable b ↔ _
    unfold toTable
    rw [TableModel.mk.injEq, List.map_eq_map_iff]
    constructor
    · rintro ⟨hn, hr⟩
      exact ⟨hn, fun code hc => (Prod.ext_iff.mp (hr code hc)).2⟩
    · rintro ⟨hn, hr⟩
      exact ⟨hn, fun code hc => by rw [hr code hc]⟩
  · intro id1 id2 nm cs sm1 sm2
    show toTable _ = toTable _
    rfl

/-- C6: `sixframes` yields exactly 6 tuples in the fixed strand-major,
frame-minor order, the third component of each being the corresponding
`translate` call; re-invocation returns the same results. -/
theorem c6_sixframes_order (gc : GCModel) (seq : List Char) :
    sixframes gc seq
        = [("+", 0, translate gc seq ((0 : Nat) : Int) false),
           ("+", 1, translate gc seq ((1 : Nat) : Int) false),
           ("+", 2, translate gc seq ((2 : Nat) : Int) false),
           ("-", 0, translate gc seq ((0 : Nat) : Int) true),
           ("-", 1, translate gc seq ((1 : Nat) : Int) true),
           ("-", 2, translate gc seq ((2 : Nat) : Int) true)]
      ∧ (sixframes gc seq).length = 6
      ∧ sixframes gc seq = sixframes gc seq := by
  refine ⟨?_, ?_, rfl⟩
  · rfl
  · rfl

/-- C7: for the Standard code (ID 1) the stop-codon set is exactly
TAA, TAG, TGA, and ATG is a start codon. -/
theorem c7_standard_stop_start_codons :
    stdCode.stops = [['T', 'A', 'A'], ['T', 'A', 'G'], ['T', 'G', 'A']]
      ∧ (∀ c, c ∈ stdCode.stops ↔
          (c = ['T', 'A', 'A'] ∨ c = ['T', 'A', 'G'] ∨ c = ['T', 'G', 'A']))
      ∧ ['A', 'T', 'G'] ∈ stdCode.starts := by
  refine ⟨rfl, ?_, by decide⟩
  intro c
  rw [show stdCode.stops = [['T', 'A', 'A'], ['T', 'A', 'G'], ['T', 'G', 'A']]
    from rfl]
  simp

/-- C8: for the Standard code, every canonical codon maps to a defined
amino acid (never the sentinel `'X'`), and the codon is a member of the
codon set of the amino acid it maps to (both directions through
`__getitem__`). -/
theorem c8_standard_roundtrip :
    ∀ c ∈ codonList,
      getitem stdCode (String.mk c)
          = .ok (.aa ((lookupAa stdCode.codonToAa c).getD 'X'))
        ∧ (lookupAa stdCode.codonToAa c).getD 'X' ≠ 'X'
        ∧ c ∈ aaToCodonGet stdCode ((lookupAa stdCode.codonToAa c).getD 'X')
        ∧ getitem stdCode (String.mk [(lookupAa stdCode.codonToAa c).getD 'X'])
            = .ok (.codons
                (aaToCodonGet stdCode ((lookupAa stdCode.codonToAa c).getD 'X'))) := by
  decide

/-- Witness for C8 at the codon ATG. -/
theorem c8_witness :
    getitem stdCode (String.mk ['A', 'T', 'G'])
        = .ok (.aa ((lookupAa stdCode.codonToAa ['A', 'T', 'G']).getD 'X'))
      ∧ (lookupAa stdCode.codonToAa ['A', 'T', 'G']).getD 'X' ≠ 'X'
      ∧ ['A', 'T', 'G'] ∈ aaToCodonGet stdCode
          ((lookupAa stdCode.codonToAa ['A', 'T', 'G']).getD 'X')
      ∧ getitem stdCode
            (String.mk [(lookupAa stdCode.codonToAa ['A', 'T', 'G']).getD 'X'])
          = .ok (.codons (aaToCodonGet stdCode
              ((lookupAa stdCode.codonToAa ['A', 'T', 'G']).getD 'X'))) :=
  c8_standard_roundtrip ['A', 'T', 'G'] (by decide)

/-- C9: `get_code(1)`, `get_code("1")` and `get_code("Standard")` return
the same Genetic Code (numeric-looking keys are normalized to integers
before matching); any key matching no registry entry fails with the domain
error `GeneticCodeError`, exemplified by `get_code(9999)`. -/
theorem c9_registry_lookup :
    get_code (.num 1) = get_code (.str "1")
      ∧ get_code (.str "Standard") = get_code (.num 1)
      ∧ (∃ gc, get_code (.num 1) = .ok gc)
      ∧ get_code (.num 9999) = .error LookupErr.unknownCode
      ∧ ∀ k : CodeKey,
          codesList.find? (fun p => p.1 == normalizeKey k) = none →
          get_code k = .error LookupErr.unknownCode := by
  have hk0 : normalizeKey (CodeKey.num 1) = CodeKey.num 1 := rfl
  have hk1 : normalizeKey (CodeKey.str "1") = CodeKey.num 1 := by decide
  have hkS : normalizeKey (CodeKey.str "Standard") = CodeKey.str "Standard" := by
    decide
  refine ⟨?_, ?_, ?_, ?_, ?_⟩
  · unfold get_code
    rw [hk0, hk1]
  · unfold get_code
    rw [hk0, hkS]
    rfl
  · exact ⟨_, rfl⟩
  · rfl
  · intro k h
    unfold get_code
    rw [h]

/-- Witness for C9's unmatched-key clause at the key 9999. -/
theorem c9_witness :
    codesList.find? (fun p => p.1 == normalizeKey (.num 9999)) = none
      ∧ get_code (.num 9999) = .error LookupErr.unknownCode :=
  ⟨rfl, c9_registry_lookup.2.2.2.2 (.num 9999) rfl⟩

end NewGeneticCode
